import Mathlib

/-
  Shallow embedding of the Acid-Trippers adaptive-ingestion core
  (src/analyzer.py, src/normalizer.py, src/classifier.py).

  Python dictionaries are modelled as insertion-ordered association lists;
  defaultdict reads that insert a default entry are modelled explicitly by
  functions returning the (value, updated map) pair.  Python sets are
  modelled as duplicate-free insertion-ordered lists (only membership and
  size are ever observed).  Python floats carrying statistical ratios are
  modelled as rationals; every comparison performed by the code is between
  values whose distance is far above one ulp, so the order structure agrees.
-/

namespace Acid

/-- Lookup in an association list (first binding wins, like a Python dict). -/
def alookup {α : Type} : List (String × α) → String → Option α
  | [], _ => none
  | (k, v) :: rest, key => if k = key then some v else alookup rest key

/-- Non-mutating read with default (used where Python reads a key known to
be present, or via `.get`). -/
def dget {α : Type} (m : List (String × α)) (key : String) (d : α) : α :=
  (alookup m key).getD d

/-- Replace the value of the first binding of `key` (key assumed present). -/
def dset {α : Type} : List (String × α) → String → α → List (String × α)
  | [], _, _ => []
  | (k, v) :: rest, key, w => if k = key then (key, w) :: rest else (k, v) :: dset rest key w

/-- `defaultdict.__getitem__`: return the bound value, inserting the default
at the end when the key is absent (this is the observable side effect of a
Python defaultdict read). -/
def dgetIns {α : Type} (m : List (String × α)) (key : String) (d : α) :
    α × List (String × α) :=
  match alookup m key with
  | some v => (v, m)
  | none => (d, m ++ [(key, d)])

/-- `m[key] = f(m[key])` on a defaultdict with default `d`
(e.g. `self.field_counts[f] += 1`). -/
def dmodify {α : Type} (m : List (String × α)) (key : String) (f : α → α) (d : α) :
    List (String × α) :=
  let p := dgetIns m key d
  dset p.2 key (f p.1)

/-- Python dict assignment `m[key] = v` (update in place or append). -/
def dinsert {α : Type} (m : List (String × α)) (key : String) (v : α) :
    List (String × α) :=
  match alookup m key with
  | some _ => dset m key v
  | none => m ++ [(key, v)]

/-- Python `set.add` on a set modelled as a duplicate-free list. -/
def sadd (s : List String) (x : String) : List String :=
  if x ∈ s then s else s ++ [x]

/-- Keys of an association list, in insertion order. -/
def keysOf {α : Type} (m : List (String × α)) : List String :=
  m.map (fun p => p.1)

/-- Values of an association list, in insertion order
(Python `dict.values()`; one entry per key, repeats possible). -/
def valuesOf {α : Type} (m : List (String × α)) : List α :=
  m.map (fun p => p.2)

/-- Sum of the counts of a counter dictionary
(`sum(type_counts.values())`). -/
def sumVals : List (String × Nat) → Nat
  | [] => 0
  | p :: rest => p.2 + sumVals rest

/-- Python `max(items, key=lambda x: x[1])`: the first pair attaining the
maximal count, in iteration order (Python max keeps the first on ties). -/
def firstMax (x : String × Nat) (rest : List (String × Nat)) : String × Nat :=
  rest.foldl (fun best p => if p.2 > best.2 then p else best) x

/-- Strict lexicographic comparison by code point (Python `str <`). -/
def strLtB : List Char → List Char → Bool
  | [], [] => false
  | [], _ :: _ => true
  | _ :: _, [] => false
  | c :: cs, d :: ds =>
    if c.toNat < d.toNat then true
    else if d.toNat < c.toNat then false
    else strLtB cs ds

/-- Insertion sort on strings, matching Python `sorted` on str
(lexicographic by code point). -/
def insertStr (x : String) : List String → List String
  | [] => [x]
  | y :: ys => if strLtB x.data y.data then x :: y :: ys else y :: insertStr x ys

def sortStrs : List String → List String
  | [] => []
  | x :: xs => insertStr x (sortStrs xs)

/-- Number of distinct elements of a list, computed as the length of the
fold that appends each first occurrence. -/
def seenStep (acc : List String) (x : String) : List String :=
  if x ∈ acc then acc else acc ++ [x]

def distinctCount (xs : List String) : Nat :=
  (xs.foldl seenStep []).length

/-! ## JSON-shaped values (the record payloads) -/

/-- A JSON-like Python value: the shapes `DataAnalyzer._get_type_name`
distinguishes.  Floats are modelled as rationals. -/
inductive Value where
  | null : Value
  | bool (b : Bool) : Value
  | int (n : Int) : Value
  | float (q : Rat) : Value
  | str (s : String) : Value
  | arr (xs : List Value) : Value
  | obj (fs : List (String × Value)) : Value

/-- `DataAnalyzer._get_type_name` (bool is tested before int, mirroring the
isinstance order in the source). -/
def pyTypeName : Value → String
  | .null => "null"
  | .bool _ => "boolean"
  | .int _ => "integer"
  | .float _ => "float"
  | .str _ => "string"
  | .arr _ => "array"
  | .obj _ => "object"

/-- Scalar = neither dict nor list (the final else branch of
`_analyze_value`). -/
def isScalarV : Value → Bool
  | .arr _ => false
  | .obj _ => false
  | _ => true

def isObjV : Value → Bool
  | .obj _ => true
  | _ => false

/-- Python `str(value)` for the scalar shapes (`None -> "None"`,
`True -> "True"`, ints in decimal).  The rendering of floats is an
abstraction (Python prints shortest round-trip decimals); no claim depends
on the float rendering. -/
def pyStr : Value → String
  | .null => "None"
  | .bool b => if b then "True" else "False"
  | .int n => toString n
  | .float q => toString q
  | .str s => s
  | .arr _ => ""
  | .obj _ => ""

/-! ## The value-pattern regexes of `DataAnalyzer.patterns`

Each matcher is a direct transcription of the anchored regex it embeds;
`re.match` anchors at the start, and all five patterns except
`iso_timestamp` also anchor at the end. -/

/-- Split a character list on a separator (Python `s.split('.')`
semantics: n separators yield n+1 possibly-empty groups). -/
def splitOnChar (sep : Char) : List Char → List (List Char)
  | [] => [[]]
  | c :: cs =>
    let r := splitOnChar sep cs
    if c = sep then [] :: r
    else
      match r with
      | [] => [[c]]
      | g :: gs => (c :: g) :: gs

/-- One dotted-quad group: 1 to 3 digits. -/
def ipGroupOk (g : List Char) : Bool :=
  decide (1 ≤ g.length) && decide (g.length ≤ 3) && g.all (fun c => c.isDigit)

/-- Regex `^\d{1,3}\.\d{1,3}\.\d{1,3}\.\d{1,3}$`. -/
def matchIp (s : String) : Bool :=
  match splitOnChar '.' s.data with
  | [a, b, c, d] => ipGroupOk a && ipGroupOk b && ipGroupOk c && ipGroupOk d
  | _ => false

def isLocalChar (c : Char) : Bool :=
  c.isAlphanum || c == '.' || c == '_' || c == '%' || c == '+' || c == '-'

def isDomChar (c : Char) : Bool :=
  c.isAlphanum || c == '.' || c == '-'

/-- The domain part `[a-zA-Z0-9.-]+\.[a-zA-Z]{2,}$`: the trailing alphabetic
run must be at least 2 long, be preceded by a literal dot, and the part
before that dot must be a non-empty run of domain characters. -/
def domOk (r : List Char) : Bool :=
  let tldRev := r.reverse.takeWhile (fun c => c.isAlpha)
  let remRev := r.reverse.dropWhile (fun c => c.isAlpha)
  decide (2 ≤ tldRev.length) &&
    (match remRev with
     | '.' :: dRev => decide (1 ≤ dRev.length) && dRev.all isDomChar
     | _ => false)

/-- Regex `^[a-zA-Z0-9._%+-]+@[a-zA-Z0-9.-]+\.[a-zA-Z]{2,}$` (neither
character class contains the at sign, so a match has exactly one). -/
def matchEmail (s : String) : Bool :=
  match splitOnChar '@' s.data with
  | [loc, dom] => decide (1 ≤ loc.length) && loc.all isLocalChar && domOk dom
  | _ => false

/-- The first list starts the second (list literal-prefix test). -/
def lPre : List Char → List Char → Bool
  | [], _ => true
  | _ :: _, [] => false
  | x :: xs, y :: ys => x == y && lPre xs ys

/-- Regex `^https?://` (unanchored at the end). -/
def matchUrl (s : String) : Bool :=
  lPre "http://".data s.data || lPre "https://".data s.data

def isHexCh (c : Char) : Bool :=
  c.isDigit || ('a' ≤ c && c ≤ 'f') || ('A' ≤ c && c ≤ 'F')

/-- Regex `^[a-f0-9]{8}-[a-f0-9]{4}-[a-f0-9]{4}-[a-f0-9]{4}-[a-f0-9]{12}$`
with `re.I`. -/
def matchUuid (s : String) : Bool :=
  match splitOnChar '-' s.data with
  | [a, b, c, d, e] =>
    decide (a.length = 8) && decide (b.length = 4) && decide (c.length = 4) &&
      decide (d.length = 4) && decide (e.length = 12) &&
      a.all isHexCh && b.all isHexCh && c.all isHexCh && d.all isHexCh && e.all isHexCh
  | _ => false

/-- Python regex `\s` on ASCII. -/
def pyIsSpace (c : Char) : Bool :=
  c == ' ' || c == '\t' || c == '\n' || c == '\x0d' || c == '\x0b' || c == '\x0c'

/-- Regex `^\d{4}-\d{2}-\d{2}[T\s]\d{2}:\d{2}:\d{2}` (prefix match only:
any suffix after the 19 matched characters is accepted). -/
def matchIso (s : String) : Bool :=
  let c := fun i => s.data.getD i '?'
  ([0, 1, 2, 3, 5, 6, 8, 9, 11, 12, 14, 15, 17, 18].all fun i => (c i).isDigit) &&
    c 4 == '-' && c 7 == '-' && (c 10 == 'T' || pyIsSpace (c 10)) &&
    c 13 == ':' && c 16 == ':'

/-- `DataAnalyzer._detect_pattern` on a string value: the patterns dict is
iterated in insertion order (ip_address, email, url, uuid, iso_timestamp),
first match wins, else "none". -/
def detectPattern (s : String) : String :=
  if matchIp s then "ip_address"
  else if matchEmail s then "email"
  else if matchUrl s then "url"
  else if matchUuid s then "uuid"
  else if matchIso s then "iso_timestamp"
  else "none"

/-! ## DataAnalyzer (src/analyzer.py) -/

/-- The mutable state of a `DataAnalyzer` instance.  `field_counts`,
`field_types` and `pattern_matches` are defaultdicts, `field_values` a
defaultdict of sets, `nested_fields` / `array_fields` plain sets. -/
structure DataAnalyzer where
  totalRecords : Nat
  fieldCounts : List (String × Nat)
  fieldTypes : List (String × List (String × Nat))
  fieldValues : List (String × List String)
  valueCountLimit : Nat
  nestedFields : List String
  arrayFields : List String
  patternMatches : List (String × List (String × Nat))

/-- `DataAnalyzer.__init__`, with the unique-value cap as a parameter:
`__init__` sets `self.value_count_limit = 10000`, and the attribute is an
ordinary configurable instance attribute read at each insertion. -/
def mkDataAnalyzer (valueCountLimit : Nat) : DataAnalyzer :=
  ⟨0, [], [], [], valueCountLimit, [], [], []⟩

/-- A freshly constructed analyzer (the default cap of 10,000). -/
def freshAnalyzer : DataAnalyzer := mkDataAnalyzer 10000

/-- `DataAnalyzer._analyze_value` (no recursive descent: dict and list
values only set the sticky flags). -/
def analyzeValue (a : DataAnalyzer) (fieldName : String) (v : Value) : DataAnalyzer :=
  -- self.field_counts[field_name] += 1
  let a := { a with fieldCounts := dmodify a.fieldCounts fieldName (fun n => n + 1) 0 }
  -- self.field_types[field_name][type_name] += 1
  let tn := pyTypeName v
  let p := dgetIns a.fieldTypes fieldName []
  let a := { a with fieldTypes := dset p.2 fieldName (dmodify p.1 tn (fun n => n + 1) 0) }
  match v with
  | .obj _ => { a with nestedFields := sadd a.nestedFields fieldName }
  | .arr _ => { a with arrayFields := sadd a.arrayFields fieldName }
  | _ =>
    -- the defaultdict read inserts the key even when the cap blocks the add
    let q := dgetIns a.fieldValues fieldName []
    let a :=
      { a with
        fieldValues :=
          if q.1.length < a.valueCountLimit then
            dset q.2 fieldName (sadd q.1 (pyStr v))
          else q.2 }
    match v with
    | .str s =>
      let pat := detectPattern s
      if pat ≠ "none" then
        let r := dgetIns a.patternMatches fieldName []
        { a with patternMatches := dset r.2 fieldName (dmodify r.1 pat (fun n => n + 1) 0) }
      else a
    | _ => a

/-- `DataAnalyzer.analyze_record` on a (string-keyed) record. -/
def analyzeRecord (a : DataAnalyzer) (record : List (String × Value)) : DataAnalyzer :=
  let a := { a with totalRecords := a.totalRecords + 1 }
  record.foldl (fun st p => analyzeValue st p.1 p.2) a

/-- `DataAnalyzer.analyze_batch`. -/
def analyzeBatch (a : DataAnalyzer) (records : List (List (String × Value))) : DataAnalyzer :=
  records.foldl analyzeRecord a

/-- `DataAnalyzer.get_field_frequency`.  The defaultdict read
`self.field_counts[field_name]` inserts the key when `total_records` is
non-zero, so the query returns the possibly-updated state as well. -/
def getFieldFrequency (a : DataAnalyzer) (fieldName : String) : Rat × DataAnalyzer :=
  if a.totalRecords = 0 then (0, a)
  else
    let p := dgetIns a.fieldCounts fieldName 0
    ((p.1 : Rat) / (a.totalRecords : Rat), { a with fieldCounts := p.2 })

/-- `DataAnalyzer.get_type_stability`: pure, since it guards both accesses
with membership tests (`not in` / truthiness) and never triggers a
defaultdict insertion. -/
def getTypeStability (a : DataAnalyzer) (fieldName : String) : String × Rat :=
  match alookup a.fieldTypes fieldName with
  | none => ("unknown", 0)
  | some typeCounts =>
    match typeCounts with
    | [] => ("unknown", 0)
    | tc :: rest =>
      let dominant := firstMax tc rest
      let total := sumVals (tc :: rest)
      (dominant.1, if total > 0 then (dominant.2 : Rat) / (total : Rat) else 0)

/-- `DataAnalyzer.get_cardinality`.  Both `self.field_values[field_name]`
and `self.field_counts[field_name]` are defaultdict reads, hence they
insert the key when absent. -/
def getCardinality (a : DataAnalyzer) (fieldName : String) : Rat × DataAnalyzer :=
  let p := dgetIns a.fieldValues fieldName []
  let q := dgetIns a.fieldCounts fieldName 0
  let a := { a with fieldValues := p.2, fieldCounts := q.2 }
  let uniqueCount := p.1.length
  let totalCount := q.1
  if totalCount = 0 then (0, a)
  else if uniqueCount ≥ a.valueCountLimit then (1, a)
  else ((uniqueCount : Rat) / (totalCount : Rat), a)

/-- `DataAnalyzer.is_nested`. -/
def analyzerIsNested (a : DataAnalyzer) (fieldName : String) : Bool :=
  fieldName ∈ a.nestedFields

/-- `DataAnalyzer.is_array`. -/
def analyzerIsArray (a : DataAnalyzer) (fieldName : String) : Bool :=
  fieldName ∈ a.arrayFields

/-- `DataAnalyzer.get_dominant_pattern`: pure, guarded like
`get_type_stability`. -/
def getDominantPattern (a : DataAnalyzer) (fieldName : String) : String :=
  match alookup a.patternMatches fieldName with
  | none => "none"
  | some pats =>
    match pats with
    | [] => "none"
    | p :: rest => (firstMax p rest).1

/-- The per-field analysis record built by
`DataAnalyzer.get_field_analysis`.  The two formatted percent strings of
the Python dict (`frequency_percent`, `type_stability_percent`) are
presentation-only duplicates of `frequency` and `type_stability` and are
not modelled. -/
structure FieldAnalysis where
  fieldName : String
  frequency : Rat
  totalOccurrences : Nat
  dominantType : String
  typeStability : Rat
  typeDistribution : List (String × Nat)
  cardinality : Rat
  uniqueValues : Nat
  isNested : Bool
  isArray : Bool
  dominantPattern : String

/-- `DataAnalyzer.get_field_analysis`.  The three defaultdict reads in the
dict literal (`field_counts[f]`, `field_types[f]`, `field_values[f]`) are
modelled in evaluation order; they too insert absent keys. -/
def getFieldAnalysis (a : DataAnalyzer) (fieldName : String) :
    FieldAnalysis × DataAnalyzer :=
  let fr := getFieldFrequency a fieldName
  let ts := getTypeStability fr.2 fieldName
  let cd := getCardinality fr.2 fieldName
  let a1 := cd.2
  let oc := dgetIns a1.fieldCounts fieldName 0
  let a2 := { a1 with fieldCounts := oc.2 }
  let td := dgetIns a2.fieldTypes fieldName []
  let a3 := { a2 with fieldTypes := td.2 }
  let uv := dgetIns a3.fieldValues fieldName []
  let a4 := { a3 with fieldValues := uv.2 }
  (⟨fieldName, fr.1, oc.1, ts.1, ts.2, td.1, cd.1, uv.1.length,
    analyzerIsNested a4 fieldName, analyzerIsArray a4 fieldName,
    getDominantPattern a4 fieldName⟩, a4)

/-- `DataAnalyzer.get_all_fields_analysis`:
`sorted(set(self.field_counts.keys()))`, then one analysis per field. -/
def getAllFieldsAnalysis (a : DataAnalyzer) : List FieldAnalysis × DataAnalyzer :=
  let allFields := sortStrs (keysOf a.fieldCounts).dedup
  allFields.foldl
    (fun acc f =>
      let r := getFieldAnalysis acc.2 f
      (acc.1 ++ [r.1], r.2))
    ([], a)

/-- `DataAnalyzer.get_summary` (the counts are read before
`get_all_fields_analysis` runs, following the dict-literal evaluation
order). -/
structure AnalyzerSummary where
  totalRecordsAnalyzed : Nat
  totalFieldsDiscovered : Nat
  nestedFieldsCount : Nat
  arrayFieldsCount : Nat
  fields : List FieldAnalysis

def getSummary (a : DataAnalyzer) : AnalyzerSummary × DataAnalyzer :=
  let tr := a.totalRecords
  let tf := a.fieldCounts.length
  let nf := a.nestedFields.length
  let af := a.arrayFields.length
  let r := getAllFieldsAnalysis a
  (⟨tr, tf, nf, af, r.1⟩, r.2)

/-- The structured snapshot produced by `DataAnalyzer.export_state`:
total_records, field_counts, field_types, nested_fields, array_fields and
pattern_matches.  (`field_values` and `value_count_limit` are not part of
the exported dict.) -/
structure AnalyzerSnapshot where
  totalRecords : Nat
  fieldCounts : List (String × Nat)
  fieldTypes : List (String × List (String × Nat))
  nestedFields : List String
  arrayFields : List String
  patternMatches : List (String × List (String × Nat))

/-- `DataAnalyzer.export_state` (the dict/list copies are identities in
this model). -/
def exportState (a : DataAnalyzer) : AnalyzerSnapshot :=
  ⟨a.totalRecords, a.fieldCounts, a.fieldTypes, a.nestedFields,
   a.arrayFields, a.patternMatches⟩

/-- `DataAnalyzer.import_state`: replaces the six exported components and
leaves `field_values` (and `value_count_limit`) of the receiving instance
untouched.  A snapshot produced by `export_state` always carries all six
keys, so the `.get(..., default)` fallbacks never fire here. -/
def importState (a : DataAnalyzer) (s : AnalyzerSnapshot) : DataAnalyzer :=
  { a with
    totalRecords := s.totalRecords
    fieldCounts := s.fieldCounts
    fieldTypes := s.fieldTypes
    nestedFields := s.nestedFields
    arrayFields := s.arrayFields
    patternMatches := s.patternMatches }

/-- Checkpoint/restore across a process restart: export the state and then
load it into a freshly constructed `DataAnalyzer()` via `import_state`. -/
def roundtripState (a : DataAnalyzer) : DataAnalyzer :=
  importState freshAnalyzer (exportState a)

/-! ## FieldNormalizer (src/normalizer.py) -/

/-- Python `name.lower()` (ASCII case mapping). -/
def pyLower (s : String) : String :=
  String.mk (s.data.map Char.toLower)

theorem lengthDropWhileLe (p : Char → Bool) (l : List Char) :
    (l.dropWhile p).length ≤ l.length := by
  induction l with
  | nil => simp [List.dropWhile]
  | cons c cs ih =>
    rw [List.dropWhile_cons]
    by_cases h : p c = true
    · simp only [h, if_true, List.length_cons]
      omega
    · simp [h]

/-- First pass of `_to_snake_case`:
`re.sub('(.)([A-Z][a-z]+)', r'\1_\2', name)`.  The scan is left to right
and non-overlapping; on a match the greedy lowercase run is consumed and
emitted, and scanning resumes after it. -/
def sub1 : List Char → List Char
  | [] => []
  | [c1] => [c1]
  | [c1, c2] => [c1, c2]
  | c1 :: c2 :: c3 :: rest =>
    if c2.isUpper && c3.isLower then
      c1 :: '_' :: c2 :: c3 :: rest.takeWhile (fun c => c.isLower) ++
        sub1 (rest.dropWhile (fun c => c.isLower))
    else
      c1 :: sub1 (c2 :: c3 :: rest)
termination_by l => l.length
decreasing_by
  · exact Nat.lt_of_le_of_lt (lengthDropWhileLe _ _) (by simp; omega)
  · simp

/-- Second pass of `_to_snake_case`:
`re.sub('([a-z0-9])([A-Z])', r'\1_\2', s1)` (matches consume both
characters; scanning resumes after the uppercase one). -/
def sub2 : List Char → List Char
  | [] => []
  | [c1] => [c1]
  | c1 :: c2 :: rest =>
    if (c1.isLower || c1.isDigit) && c2.isUpper then
      c1 :: '_' :: c2 :: sub2 rest
    else
      c1 :: sub2 (c2 :: rest)
termination_by l => l.length

/-- `FieldNormalizer._to_snake_case`. -/
def toSnakeCase (name : String) : String :=
  pyLower (String.mk (sub2 (sub1 name.data)))

/-- Python string membership `a in b` (substring containment). -/
def lSub (a : List Char) : List Char → Bool
  | [] => lPre a []
  | c :: cs => lPre a (c :: cs) || lSub a cs

/-- `name.replace('_', '')`. -/
def stripUnderscores (s : String) : String :=
  String.mk (s.data.filter (fun c => c != '_'))

/-- `FieldNormalizer._is_similar`: identical after stripping underscores,
or, when both stripped forms are longer than 3 characters, one is a
substring of the other and the stripped lengths differ by at most 3. -/
def isSimilar (name1 name2 : String) : Bool :=
  let clean1 := stripUnderscores name1
  let clean2 := stripUnderscores name2
  if clean1 = clean2 then true
  else if decide (3 < clean1.length) && decide (3 < clean2.length) then
    if lSub clean1.data clean2.data || lSub clean2.data clean1.data then
      -- abs(len(clean1) - len(clean2)) <= 3
      decide ((clean1.length - clean2.length) + (clean2.length - clean1.length) ≤ 3)
    else false
  else false

/-- The fuzzy-match predicate exactly as the specification words it
(claim C3): stripped forms identical, or one a substring of the other with
the two names differing in length by at most 3 characters, with no lower
bound on the stripped lengths. -/
def specSimilar (name1 name2 : String) : Prop :=
  let clean1 := stripUnderscores name1
  let clean2 := stripUnderscores name2
  clean1 = clean2 ∨
    ((lSub clean1.data clean2.data = true ∨ lSub clean2.data clean1.data = true) ∧
      (name1.length - name2.length) + (name2.length - name1.length) ≤ 3)

instance (name1 name2 : String) : Decidable (specSimilar name1 name2) := by
  unfold specSimilar
  exact inferInstance

/-- The mutable state of a `FieldNormalizer`: the learned raw-to-canonical
map and the inverse variations index (a defaultdict of sets). -/
structure FieldNormalizer where
  canonicalMap : List (String × String)
  variations : List (String × List String)

/-- `FieldNormalizer.known_patterns` in dict-literal order. -/
def knownPatterns : List (String × List String) :=
  [("username", ["username", "user_name", "userName", "Username", "UserName"]),
   ("timestamp", ["timestamp", "t_stamp", "time_stamp", "timeStamp", "Timestamp"]),
   ("ip_address", ["ip", "IP", "IpAddress", "ip_address", "ipAddress", "Ip"]),
   ("email", ["email", "Email", "email_address", "emailAddress", "e_mail"]),
   ("age", ["age", "Age", "user_age", "userAge"]),
   ("country", ["country", "Country", "location_country"]),
   ("status", ["status", "Status", "user_status", "userStatus"])]

/-- `FieldNormalizer.__init__`: seed the canonical map and variations from
the known patterns. -/
def freshNormalizer : FieldNormalizer :=
  knownPatterns.foldl
    (fun n p =>
      p.2.foldl
        (fun n variant =>
          ⟨dinsert n.canonicalMap (pyLower variant) p.1,
           dmodify n.variations p.1 (fun s => sadd s variant) []⟩)
        n)
    ⟨[], []⟩

/-- The fuzzy loop of `_find_canonical_match` step 3: the first canonical
name, in `canonical_map.values()` iteration order, similar to the derived
snake-case form. -/
def findSimilarCanonical (snakeName : String) : List String → Option String
  | [] => none
  | c :: cs => if isSimilar snakeName c then some c else findSimilarCanonical snakeName cs

/-- `FieldNormalizer._find_canonical_match`: direct hit, snake-case hit,
fuzzy match, or new canonical field, in that order; every path leaves
`canonical_map[lower_name]` bound to the returned canonical name. -/
def findCanonicalMatch (n : FieldNormalizer) (fieldName : String) :
    String × FieldNormalizer :=
  let lowerName := pyLower fieldName
  match alookup n.canonicalMap lowerName with
  | some c => (c, n)
  | none =>
    let snakeName := toSnakeCase fieldName
    if snakeName ∈ valuesOf n.canonicalMap then
      (snakeName,
       ⟨dinsert n.canonicalMap lowerName snakeName,
        dmodify n.variations snakeName (fun s => sadd s fieldName) []⟩)
    else
      match findSimilarCanonical snakeName (valuesOf n.canonicalMap) with
      | some canonical =>
        (canonical,
         ⟨dinsert n.canonicalMap lowerName canonical,
          dmodify n.variations canonical (fun s => sadd s fieldName) []⟩)
      | none =>
        (snakeName,
         ⟨dinsert n.canonicalMap lowerName snakeName,
          dmodify n.variations snakeName (fun s => sadd s fieldName) []⟩)

/-- `FieldNormalizer.normalize_field_name`. -/
def normalizeFieldName (n : FieldNormalizer) (fieldName : String) :
    String × FieldNormalizer :=
  findCanonicalMatch n fieldName

/-- `FieldNormalizer.normalize_record` on a string-keyed record: renamed
record plus the original-to-canonical audit mapping. -/
def normalizeRecord (n : FieldNormalizer) (record : List (String × Value)) :
    (List (String × Value)) × (List (String × String)) × FieldNormalizer :=
  record.foldl
    (fun acc p =>
      let r := normalizeFieldName acc.2.2 p.1
      (dinsert acc.1 r.1 p.2, dinsert acc.2.1 p.1 r.1, r.2))
    ([], [], n)

/-! ## Dynamic (untyped) entry points and their failure behavior -/

/-- The exceptions relevant to claim C4: the generic `AttributeError` a
non-mapping input actually triggers (missing attribute named), and the
clearly labeled input-shape error the specification calls for (never
raised anywhere in the code). -/
inductive PyExc where
  | attributeError (attr : String)
  | inputShapeError (msg : String)
deriving DecidableEq

/-- True exactly for the labeled input-shape error. -/
def isShapeError {α : Type} : Except PyExc α → Bool
  | .error (.inputShapeError _) => true
  | _ => false

/-- `DataAnalyzer.analyze_record` on an arbitrary JSON-shaped input: the
body has no shape check, so any non-dict argument raises `AttributeError`
at `record.items()`.  (The `self.total_records += 1` that precedes the
failing attribute access mutates the instance before the exception
propagates; that mutation is not observable through the exception value
modelled here.) -/
def analyzeRecordDyn (a : DataAnalyzer) : Value → Except PyExc DataAnalyzer
  | .obj fs => .ok (analyzeRecord a fs)
  | _ => .error (.attributeError "items")

/-- `FieldNormalizer.normalize_record` on an arbitrary JSON-shaped input:
again no shape check, `record.items()` raises `AttributeError` for any
non-dict argument. -/
def normalizeRecordDyn (n : FieldNormalizer) :
    Value → Except PyExc ((List (String × Value)) × (List (String × String)) × FieldNormalizer)
  | .obj fs => .ok (normalizeRecord n fs)
  | _ => .error (.attributeError "items")

/-! ## Classifier (src/classifier.py) -/

/-- The storage backend decision. -/
inductive Backend where
  | sql : Backend
  | mongodb : Backend
  | both : Backend
deriving DecidableEq

/-- The `FieldClassification` dataclass. -/
structure FieldClassification where
  fieldName : String
  backend : Backend
  reason : String
  confidence : Rat
  frequency : Rat
  typeStability : Rat
  dominantType : String
  isNested : Bool
  isArray : Bool
  cardinality : Rat
  isUnique : Bool

/-- The classifier configuration state set up by `Classifier.__init__`.
The Python config dict may hold arbitrary values, but the constructor only
ever reads the four numeric threshold keys, modelled here as rationals. -/
structure Classifier where
  sqlFrequencyThreshold : Rat
  sqlTypeStabilityThreshold : Rat
  uniqueCardinalityThreshold : Rat
  sparseThreshold : Rat
  mandatoryBothFields : List String

/-- `self.config.get(key, default)`. -/
def cfgGet (config : List (String × Rat)) (key : String) (d : Rat) : Rat :=
  dget config key d

/-- `Classifier.__init__`: the four thresholds come from the config with
defaults; `mandatory_both_fields` is the hardcoded two-element set, with
no configuration hook. -/
def mkClassifier (config : List (String × Rat)) : Classifier :=
  ⟨cfgGet config "sql_frequency" (80/100),
   cfgGet config "sql_type_stability" (90/100),
   cfgGet config "unique_cardinality" (95/100),
   cfgGet config "sparse_threshold" (30/100),
   ["username", "sys_ingested_at"]⟩

/-- `Classifier._classify_field`: the seven-rule cascade, first match
wins.  The reason strings of rules 4, 5 and 6 interpolate the observed
percentages in Python; those numerals are presentation only and elided
here, keeping the fixed sentence skeleton. -/
def classifyField (c : Classifier) (fa : FieldAnalysis) : FieldClassification :=
  let isUnique := decide (fa.cardinality ≥ c.uniqueCardinalityThreshold) &&
    decide (fa.frequency ≥ c.sqlFrequencyThreshold)
  -- Rule 1: mandatory join fields
  if fa.fieldName ∈ c.mandatoryBothFields then
    ⟨fa.fieldName, .both, "Mandatory join field - required in both backends", 1,
     fa.frequency, fa.typeStability, fa.dominantType, fa.isNested, fa.isArray,
     fa.cardinality, isUnique⟩
  -- Rule 2: nested objects
  else if fa.isNested then
    ⟨fa.fieldName, .mongodb, "Contains nested objects - MongoDB handles nesting better", 1,
     fa.frequency, fa.typeStability, fa.dominantType, fa.isNested, fa.isArray,
     fa.cardinality, false⟩
  -- Rule 3: arrays
  else if fa.isArray then
    ⟨fa.fieldName, .mongodb, "Contains arrays - MongoDB handles arrays natively", 1,
     fa.frequency, fa.typeStability, fa.dominantType, fa.isNested, fa.isArray,
     fa.cardinality, false⟩
  -- Rule 4: sparse fields
  else if fa.frequency < c.sparseThreshold then
    ⟨fa.fieldName, .mongodb, "Sparse field - MongoDB handles optional fields better", 9/10,
     fa.frequency, fa.typeStability, fa.dominantType, fa.isNested, fa.isArray,
     fa.cardinality, false⟩
  -- Rule 5: type instability
  else if fa.typeStability < c.sqlTypeStabilityThreshold then
    ⟨fa.fieldName, .mongodb, "Type instability - MongoDB handles schema flexibility", 85/100,
     fa.frequency, fa.typeStability, fa.dominantType, fa.isNested, fa.isArray,
     fa.cardinality, false⟩
  -- Rule 6: high frequency, stable simple type
  else if fa.frequency ≥ c.sqlFrequencyThreshold ∧
      fa.typeStability ≥ c.sqlTypeStabilityThreshold ∧
      fa.dominantType ∈ (["string", "integer", "float", "boolean"] : List String) then
    ⟨fa.fieldName, .sql, "High frequency, stable type, structured",
     min fa.frequency fa.typeStability,
     fa.frequency, fa.typeStability, fa.dominantType, fa.isNested, fa.isArray,
     fa.cardinality, isUnique⟩
  -- Rule 7: default
  else
    ⟨fa.fieldName, .mongodb, "Ambiguous pattern - MongoDB provides flexibility", 6/10,
     fa.frequency, fa.typeStability, fa.dominantType, fa.isNested, fa.isArray,
     fa.cardinality, false⟩

/-- `Classifier.classify_all_fields`: rebuild the classification map from
scratch (`self.classifications = {}` then one insert per analysis). -/
def classifyAllFields (c : Classifier) (analyses : List FieldAnalysis) :
    List (String × FieldClassification) :=
  analyses.foldl
    (fun m fa =>
      let cl := classifyField c fa
      dinsert m cl.fieldName cl)
    []

/-- `Classifier.get_sql_fields`: classifications placed in SQL or BOTH. -/
def getSqlFields (classifications : List (String × FieldClassification)) :
    List FieldClassification :=
  (valuesOf classifications).filter
    (fun cl => decide (cl.backend = Backend.sql ∨ cl.backend = Backend.both))

/-- `Classifier.get_unique_fields`: names of SQL/BOTH fields whose
decision carries `is_unique`. -/
def getUniqueFields (classifications : List (String × FieldClassification)) :
    List String :=
  ((getSqlFields classifications).filter (fun cl => cl.isUnique)).map
    (fun cl => cl.fieldName)

/-! ## Claim C7: default-rule fallback for a mid-frequency stable string -/

/-- C7: under the default thresholds, a non-nested, non-array field outside
`mandatory_both_fields` with frequency 0.5, dominant type string and type
stability 0.95 falls through rules 1 to 6 and is classified to MONGODB with
confidence 0.6 by the default rule. -/
theorem c7_default_rule_fallback (fa : FieldAnalysis)
    (h1 : fa.isNested = false) (h2 : fa.isArray = false)
    (h3 : fa.fieldName ∉ (["username", "sys_ingested_at"] : List String))
    (h4 : fa.frequency = 1/2) (h5 : fa.dominantType = "string")
    (h6 : fa.typeStability = 95/100) :
    (classifyField (mkClassifier []) fa).backend = Backend.mongodb ∧
      (classifyField (mkClassifier []) fa).confidence = 6/10 ∧
      (classifyField (mkClassifier []) fa).reason =
        "Ambiguous pattern - MongoDB provides flexibility" := by
  unfold classifyField mkClassifier cfgGet dget alookup
  rw [h1, h2, h4, h5, h6]
  have h3' : ¬(fa.fieldName = "username" ∨ fa.fieldName = "sys_ingested_at") := by
    simpa using h3
  norm_num [h3']

/-- Witness for C7 at a concrete analysis record. -/
theorem c7_default_rule_fallback_witness :
    (classifyField (mkClassifier [])
        ⟨"payload", 1/2, 50, "string", 95/100, [("string", 50)], 1/2, 25,
         false, false, "none"⟩).backend = Backend.mongodb ∧
      (classifyField (mkClassifier [])
        ⟨"payload", 1/2, 50, "string", 95/100, [("string", 50)], 1/2, 25,
         false, false, "none"⟩).confidence = 6/10 ∧
      (classifyField (mkClassifier [])
        ⟨"payload", 1/2, 50, "string", 95/100, [("string", 50)], 1/2, 25,
         false, false, "none"⟩).reason =
        "Ambiguous pattern - MongoDB provides flexibility" :=
  c7_default_rule_fallback _ rfl rfl (by decide) rfl rfl rfl

/-! ## Claim C9: is_unique is the cascade-independent threshold formula -/

/-- C9: `is_unique` is computed before the cascade as
`cardinality >= unique_cardinality_threshold AND
frequency >= sql_frequency_threshold`, and every decision that places a
field in SQL or BOTH carries exactly that value. -/
theorem c9_is_unique_formula (c : Classifier) (fa : FieldAnalysis)
    (h : (classifyField c fa).backend = Backend.sql ∨
         (classifyField c fa).backend = Backend.both) :
    (classifyField c fa).isUnique =
      (decide (fa.cardinality ≥ c.uniqueCardinalityThreshold) &&
       decide (fa.frequency ≥ c.sqlFrequencyThreshold)) := by
  unfold classifyField at h ⊢
  split_ifs at h ⊢ <;> simp_all

/-- Witness for C9: `username` classifies to BOTH and carries the formula
value. -/
theorem c9_is_unique_formula_witness :
    (classifyField (mkClassifier [])
        ⟨"username", 1, 100, "string", 1, [("string", 100)], 1, 100,
         false, false, "none"⟩).isUnique =
      (decide ((1 : Rat) ≥ (mkClassifier []).uniqueCardinalityThreshold) &&
       decide ((1 : Rat) ≥ (mkClassifier []).sqlFrequencyThreshold)) :=
  c9_is_unique_formula (mkClassifier []) _ (Or.inr (by decide))

/-! ## Claim C10: mandatory_both_fields is hardcoded -/

/-- C10: for every configuration, the mandatory both-backend set is exactly
username and sys_ingested_at, and rule 1 (decision BOTH) fires for exactly
those two field names. -/
theorem c10_mandatory_fields_fixed (config : List (String × Rat)) :
    (mkClassifier config).mandatoryBothFields = ["username", "sys_ingested_at"] ∧
      ∀ fa : FieldAnalysis,
        ((classifyField (mkClassifier config) fa).backend = Backend.both ↔
          fa.fieldName ∈ (["username", "sys_ingested_at"] : List String)) := by
  refine ⟨rfl, fun fa => ?_⟩
  unfold classifyField
  split_ifs with h1 h2 h3 h4 h5 h6 <;> simp_all [mkClassifier]

/-! ## Association-list lemmas -/

theorem alookup_cons {α : Type} (k0 : String) (v0 : α) (rest : List (String × α))
    (k : String) :
    alookup ((k0, v0) :: rest) k = if k0 = k then some v0 else alookup rest k := rfl

theorem alookup_append_some {α : Type} {m : List (String × α)} (l : List (String × α))
    {k : String} {c : α} (h : alookup m k = some c) : alookup (m ++ l) k = some c := by
  induction m with
  | nil => simp [alookup] at h
  | cons p rest ih =>
    obtain ⟨k0, v0⟩ := p
    rw [List.cons_append, alookup_cons]
    rw [alookup_cons] at h
    by_cases hk : k0 = k
    · rw [if_pos hk] at h ⊢
      exact h
    · rw [if_neg hk] at h ⊢
      exact ih h

theorem alookup_append_single {α : Type} {m : List (String × α)} {k : String} (v : α)
    (h : alookup m k = none) : alookup (m ++ [(k, v)]) k = some v := by
  induction m with
  | nil => simp [alookup]
  | cons p rest ih =>
    obtain ⟨k0, v0⟩ := p
    rw [List.cons_append, alookup_cons]
    rw [alookup_cons] at h
    by_cases hk : k0 = k
    · rw [if_pos hk] at h
      exact absurd h (by simp)
    · rw [if_neg hk] at h ⊢
      exact ih h

theorem dinsert_of_none {α : Type} {m : List (String × α)} {k : String} (v : α)
    (h : alookup m k = none) : dinsert m k v = m ++ [(k, v)] := by
  unfold dinsert
  rw [h]

theorem alookup_dinsert_self {α : Type} {m : List (String × α)} {k : String} (v : α)
    (h : alookup m k = none) : alookup (dinsert m k v) k = some v := by
  rw [dinsert_of_none _ h]
  exact alookup_append_single _ h

theorem alookup_dinsert_of_none {α : Type} {m : List (String × α)} {k k' : String} (v : α)
    (hk' : alookup m k' = none) {c : α} (h : alookup m k = some c) :
    alookup (dinsert m k' v) k = some c := by
  rw [dinsert_of_none _ hk']
  exact alookup_append_some _ h

/-! ## Claim C8: resolver idempotence -/

/-- Every path of `_find_canonical_match` leaves the lowercased raw name
bound to the returned canonical name. -/
theorem findCanonicalMatch_binds (n : FieldNormalizer) (raw : String) :
    alookup ((findCanonicalMatch n raw).2).canonicalMap (pyLower raw) =
      some ((findCanonicalMatch n raw).1) := by
  cases h : alookup n.canonicalMap (pyLower raw) with
  | some c =>
    simp only [findCanonicalMatch, h]
  | none =>
    simp only [findCanonicalMatch, h]
    split_ifs with h1
    · exact alookup_dinsert_self _ h
    · cases h2 : findSimilarCanonical (toSnakeCase raw) (valuesOf n.canonicalMap) with
      | some canonical =>
        simp only [h2]
        exact alookup_dinsert_self _ h
      | none =>
        simp only [h2]
        exact alookup_dinsert_self _ h

/-- Resolving any name never disturbs an existing binding of the canonical
map (bindings are only ever added for absent keys). -/
theorem findCanonicalMatch_preserves (n : FieldNormalizer) (x : String)
    {k : String} {c : String} (h : alookup n.canonicalMap k = some c) :
    alookup ((findCanonicalMatch n x).2).canonicalMap k = some c := by
  cases hx : alookup n.canonicalMap (pyLower x) with
  | some c0 =>
    simp only [findCanonicalMatch, hx]
    exact h
  | none =>
    simp only [findCanonicalMatch, hx]
    split_ifs with h1
    · exact alookup_dinsert_of_none _ hx h
    · cases h2 : findSimilarCanonical (toSnakeCase x) (valuesOf n.canonicalMap) with
      | some canonical =>
        simp only [h2]
        exact alookup_dinsert_of_none _ hx h
      | none =>
        simp only [h2]
        exact alookup_dinsert_of_none _ hx h

/-- A direct hit returns the binding and leaves the state untouched. -/
theorem findCanonicalMatch_hit (n : FieldNormalizer) (raw : String) {c : String}
    (h : alookup n.canonicalMap (pyLower raw) = some c) :
    findCanonicalMatch n raw = (c, n) := by
  simp only [findCanonicalMatch, h]

/-- A sequence of interleaved resolutions of other raw names. -/
def resolveAll (n : FieldNormalizer) (names : List String) : FieldNormalizer :=
  names.foldl (fun st x => (normalizeFieldName st x).2) n

theorem resolveAll_preserves (names : List String) (n : FieldNormalizer)
    {k : String} {c : String} (h : alookup n.canonicalMap k = some c) :
    alookup (resolveAll n names).canonicalMap k = some c := by
  induction names generalizing n with
  | nil => exact h
  | cons x xs ih =>
    simp only [resolveAll, List.foldl_cons]
    exact ih _ (findCanonicalMatch_preserves n x h)

/-- C8: resolving a raw name a second time, after arbitrarily many
interleaved resolutions of other names, returns the same canonical name as
the first resolution (the repeat is a direct lookup of the binding the
first resolution recorded). -/
theorem c8_resolver_idempotent (n : FieldNormalizer) (raw : String)
    (others : List String) :
    (normalizeFieldName (resolveAll (normalizeFieldName n raw).2 others) raw).1 =
      (normalizeFieldName n raw).1 := by
  unfold normalizeFieldName
  have hbind := findCanonicalMatch_binds n raw
  have hkeep := resolveAll_preserves others _ hbind
  rw [findCanonicalMatch_hit _ _ hkeep]

/-! ## Claim C3: the fuzzy-match predicate -/

/-- C3 counterexample: the claimed predicate matches `ag` against the
canonical `age` (substring, length difference 1) and `ab_cd` against
`abcdefgh` (substring, raw-name lengths differ by 3), but `_is_similar`
rejects both: the first because a stripped form of length at most 3 can
never take the substring branch, the second because the code compares the
underscore-stripped lengths (4 vs 8), not the raw name lengths. -/
theorem c3_counterexample :
    isSimilar "ag" "age" = false ∧ specSimilar "ag" "age" ∧
      isSimilar "ab_cd" "abcdefgh" = false ∧ specSimilar "ab_cd" "abcdefgh" := by
  decide

/-- The fuzzy-match predicate as the code actually computes it: stripped
forms identical, or both stripped forms longer than 3 characters, one a
substring of the other, and the stripped lengths differing by at most 3. -/
def specSimilarAmended (name1 name2 : String) : Prop :=
  let clean1 := stripUnderscores name1
  let clean2 := stripUnderscores name2
  clean1 = clean2 ∨
    (3 < clean1.length ∧ 3 < clean2.length ∧
      (lSub clean1.data clean2.data = true ∨ lSub clean2.data clean1.data = true) ∧
      (clean1.length - clean2.length) + (clean2.length - clean1.length) ≤ 3)

/-- C3 amended: `_is_similar` matches two names exactly when their
underscore-stripped forms are identical, or when both stripped forms are
longer than 3 characters, one is a substring of the other, and the
stripped lengths differ by at most 3. -/
theorem c3_amended_similarity (name1 name2 : String) :
    isSimilar name1 name2 = true ↔ specSimilarAmended name1 name2 := by
  simp only [isSimilar, specSimilarAmended]
  split_ifs with h1 h2 h3 <;> simp_all

/-! ## Claim C4: failure behavior on non-mapping input -/

/-- C4 counterexample: on a list input both record-consuming operations
raise the generic `AttributeError` for the missing `items` attribute; no
labeled input-shape error is produced. -/
theorem c4_counterexample :
    analyzeRecordDyn freshAnalyzer (Value.arr []) =
        Except.error (PyExc.attributeError "items") ∧
      isShapeError (analyzeRecordDyn freshAnalyzer (Value.arr [])) = false ∧
      normalizeRecordDyn freshNormalizer (Value.arr []) =
        Except.error (PyExc.attributeError "items") ∧
      isShapeError (normalizeRecordDyn freshNormalizer (Value.arr [])) = false :=
  ⟨rfl, rfl, rfl, rfl⟩

/-- C4 amended: for every non-mapping input, `analyze_record` and
`normalize_record` fail, but with the unrelated generic `AttributeError`
raised by `record.items()`, not with a clearly labeled input-shape error;
the input is never silently coerced. -/
theorem c4_amended_shape_error (a : DataAnalyzer) (n : FieldNormalizer) (v : Value)
    (h : isObjV v = false) :
    analyzeRecordDyn a v = Except.error (PyExc.attributeError "items") ∧
      normalizeRecordDyn n v = Except.error (PyExc.attributeError "items") := by
  cases v <;> simp_all [isObjV, analyzeRecordDyn, normalizeRecordDyn]

/-- Witness for the amended C4 at the input `None`. -/
theorem c4_amended_shape_error_witness :
    analyzeRecordDyn freshAnalyzer Value.null =
        Except.error (PyExc.attributeError "items") ∧
      normalizeRecordDyn freshNormalizer Value.null =
        Except.error (PyExc.attributeError "items") :=
  c4_amended_shape_error freshAnalyzer freshNormalizer Value.null rfl

/-! ## Claim C1: export/import round-trip -/

/-- C1 counterexample: after analyzing one record with a single string
value, the unique-value set of field `a` has size 1 and the reported
cardinality is 1; after export and import into a fresh instance the size
is 0 and the cardinality 0 — the unique-value set is not part of the
exported snapshot. -/
theorem c1_counterexample :
    (dget (analyzeRecord freshAnalyzer [("a", Value.str "x")]).fieldValues "a" []).length
        = 1 ∧
      (dget (roundtripState
          (analyzeRecord freshAnalyzer [("a", Value.str "x")])).fieldValues "a" []).length
        = 0 := by
  decide

/-- C1 amended: the export/import round-trip restores the record total,
the per-field occurrence counts, type histograms, nested/array flags and
pattern histograms exactly, for every analyzer state; the unique-value
sets are not exported, so after a restore into a fresh instance every
field's unique-value set is empty (and the reported unique-value count and
cardinality are those of an empty set, not the originals). -/
theorem c1_amended_roundtrip (a : DataAnalyzer) :
    (roundtripState a).totalRecords = a.totalRecords ∧
      (roundtripState a).fieldCounts = a.fieldCounts ∧
      (roundtripState a).fieldTypes = a.fieldTypes ∧
      (roundtripState a).nestedFields = a.nestedFields ∧
      (roundtripState a).arrayFields = a.arrayFields ∧
      (roundtripState a).patternMatches = a.patternMatches ∧
      (roundtripState a).fieldValues = [] :=
  ⟨rfl, rfl, rfl, rfl, rfl, rfl, rfl⟩

/-! ## Claim C2: the derived read queries -/

/-- C2 counterexample: on an analyzer that has seen one record with only
field `a`, querying the cardinality of the never-observed field `ghost`
returns the neutral default 0 but inserts `ghost` into the tracked
field-count map, so `get_all_fields_analysis` afterwards enumerates it. -/
theorem c2_counterexample :
    ((getAllFieldsAnalysis
          ((getCardinality (analyzeRecord freshAnalyzer [("a", Value.int 1)])
            "ghost").2)).1.map (fun fa => fa.fieldName)) = ["a", "ghost"] := by
  decide

/-- C2 amended: for a never-observed field the four queries are total and
return the neutral defaults (0, (unknown, 0), 0, none);
`get_type_stability` and `get_dominant_pattern` leave the state unchanged,
but `get_cardinality` always, and `get_field_frequency` whenever at least
one record has been analyzed, insert the queried field into the
field-count map, so the field subsequently appears in the enumerated
analyses. -/
theorem c2_amended_query_defaults (a : DataAnalyzer) (f : String)
    (hc : alookup a.fieldCounts f = none)
    (ht : alookup a.fieldTypes f = none)
    (hv : alookup a.fieldValues f = none)
    (hp : alookup a.patternMatches f = none) :
    (getFieldFrequency a f).1 = 0 ∧
      getTypeStability a f = ("unknown", 0) ∧
      (getCardinality a f).1 = 0 ∧
      getDominantPattern a f = "none" ∧
      keysOf ((getCardinality a f).2).fieldCounts = keysOf a.fieldCounts ++ [f] ∧
      (a.totalRecords ≠ 0 →
        keysOf ((getFieldFrequency a f).2).fieldCounts = keysOf a.fieldCounts ++ [f]) ∧
      (a.totalRecords = 0 → (getFieldFrequency a f).2 = a) := by
  refine ⟨?_, ?_, ?_, ?_, ?_, ?_, ?_⟩
  · unfold getFieldFrequency
    split_ifs with h0
    · rfl
    · simp [dgetIns, hc]
  · unfold getTypeStability
    rw [ht]
  · unfold getCardinality
    simp [dgetIns, hc, hv]
  · unfold getDominantPattern
    rw [hp]
  · unfold getCardinality
    simp [dgetIns, hc, hv, keysOf]
  · intro h0
    unfold getFieldFrequency
    rw [if_neg h0]
    simp [dgetIns, hc, keysOf]
  · intro h0
    unfold getFieldFrequency
    rw [if_pos h0]

/-- Witness for the amended C2: one record seen, query field `b`. -/
theorem c2_amended_query_defaults_witness :
    (getFieldFrequency (analyzeRecord freshAnalyzer [("a", Value.int 1)]) "b").1 = 0 ∧
      getTypeStability (analyzeRecord freshAnalyzer [("a", Value.int 1)]) "b"
        = ("unknown", 0) ∧
      (getCardinality (analyzeRecord freshAnalyzer [("a", Value.int 1)]) "b").1 = 0 ∧
      getDominantPattern (analyzeRecord freshAnalyzer [("a", Value.int 1)]) "b" = "none" ∧
      keysOf ((getCardinality (analyzeRecord freshAnalyzer [("a", Value.int 1)])
          "b").2).fieldCounts
        = keysOf (analyzeRecord freshAnalyzer [("a", Value.int 1)]).fieldCounts ++ ["b"] ∧
      ((analyzeRecord freshAnalyzer [("a", Value.int 1)]).totalRecords ≠ 0 →
        keysOf ((getFieldFrequency (analyzeRecord freshAnalyzer [("a", Value.int 1)])
            "b").2).fieldCounts
          = keysOf (analyzeRecord freshAnalyzer [("a", Value.int 1)]).fieldCounts ++ ["b"]) ∧
      ((analyzeRecord freshAnalyzer [("a", Value.int 1)]).totalRecords = 0 →
        (getFieldFrequency (analyzeRecord freshAnalyzer [("a", Value.int 1)]) "b").2
          = analyzeRecord freshAnalyzer [("a", Value.int 1)]) :=
  c2_amended_query_defaults _ "b" (by decide) (by decide) (by decide) (by decide)


/-! ## Lemmas on the defaultdict model (for claims C5 and C6) -/

theorem dset_cons {α : Type} (k0 : String) (v0 : α) (rest : List (String × α))
    (key : String) (w : α) :
    dset ((k0, v0) :: rest) key w =
      if k0 = key then (key, w) :: rest else (k0, v0) :: dset rest key w := rfl

theorem alookup_dset_self {α : Type} {m : List (String × α)} {k : String} {v : α} (w : α)
    (h : alookup m k = some v) : alookup (dset m k w) k = some w := by
  induction m with
  | nil => simp [alookup] at h
  | cons p rest ih =>
    obtain ⟨k0, v0⟩ := p
    rw [alookup_cons] at h
    rw [dset_cons]
    by_cases hk : k0 = k
    · rw [if_pos hk, alookup_cons, if_pos rfl]
    · rw [if_neg hk] at h
      rw [if_neg hk, alookup_cons, if_neg hk]
      exact ih h

theorem alookup_dset_other {α : Type} {m : List (String × α)} {k k' : String} (w : α)
    (h : k ≠ k') : alookup (dset m k w) k' = alookup m k' := by
  induction m with
  | nil => rfl
  | cons p rest ih =>
    obtain ⟨k0, v0⟩ := p
    rw [dset_cons]
    by_cases hk : k0 = k
    · subst hk
      rw [if_pos rfl, alookup_cons, alookup_cons, if_neg h, if_neg h]
    · rw [if_neg hk, alookup_cons, alookup_cons]
      by_cases hk' : k0 = k'
      · rw [if_pos hk', if_pos hk']
      · rw [if_neg hk', if_neg hk']
        exact ih

theorem alookup_append_other {α : Type} {m : List (String × α)} {k k' : String} (d : α)
    (h : k ≠ k') : alookup (m ++ [(k, d)]) k' = alookup m k' := by
  induction m with
  | nil => simp [alookup, h]
  | cons p rest ih =>
    obtain ⟨k0, v0⟩ := p
    rw [List.cons_append, alookup_cons, alookup_cons]
    by_cases hk : k0 = k'
    · rw [if_pos hk, if_pos hk]
    · rw [if_neg hk, if_neg hk]
      exact ih

theorem dgetIns_fst {α : Type} (m : List (String × α)) (k : String) (d : α) :
    (dgetIns m k d).1 = dget m k d := by
  unfold dgetIns dget
  cases h : alookup m k <;> simp [h]

theorem alookup_dgetIns_self {α : Type} (m : List (String × α)) (k : String) (d : α) :
    alookup (dgetIns m k d).2 k = some ((dgetIns m k d).1) := by
  unfold dgetIns
  cases h : alookup m k with
  | some v => simpa using h
  | none => simpa using alookup_append_single d h

theorem alookup_dgetIns_other {α : Type} (m : List (String × α)) (k k' : String) (d : α)
    (h : k ≠ k') : alookup (dgetIns m k d).2 k' = alookup m k' := by
  unfold dgetIns
  cases hm : alookup m k with
  | some v => rfl
  | none => simpa using alookup_append_other d h

theorem dget_dmodify_self {α : Type} (m : List (String × α)) (k : String) (f : α → α)
    (d : α) : dget (dmodify m k f d) k d = f (dget m k d) := by
  simp only [dmodify, dget]
  rw [alookup_dset_self _ (alookup_dgetIns_self m k d), dgetIns_fst]
  rfl

theorem dget_dmodify_other {α : Type} (m : List (String × α)) (k k' : String) (f : α → α)
    (d d' : α) (h : k ≠ k') : dget (dmodify m k f d) k' d' = dget m k' d' := by
  simp only [dmodify, dget]
  rw [alookup_dset_other _ h, alookup_dgetIns_other _ _ _ _ h]

theorem sumVals_dset_succ {m : List (String × Nat)} {k : String} {v : Nat}
    (h : alookup m k = some v) : sumVals (dset m k (v + 1)) = sumVals m + 1 := by
  induction m with
  | nil => simp [alookup] at h
  | cons p rest ih =>
    obtain ⟨k0, v0⟩ := p
    rw [alookup_cons] at h
    rw [dset_cons]
    by_cases hk : k0 = k
    · rw [if_pos hk] at *
      injection h with h
      subst h
      simp [sumVals]
      omega
    · rw [if_neg hk] at *
      simp only [sumVals]
      rw [ih h]
      omega

theorem sumVals_append_single (m : List (String × Nat)) (k : String) (w : Nat) :
    sumVals (m ++ [(k, w)]) = sumVals m + w := by
  induction m with
  | nil => simp [sumVals]
  | cons p rest ih =>
    simp only [List.cons_append, sumVals]
    rw [show rest.append [(k, w)] = rest ++ [(k, w)] from rfl, ih]
    omega

theorem sumVals_dmodify_succ (m : List (String × Nat)) (k : String) :
    sumVals (dmodify m k (fun n => n + 1) 0) = sumVals m + 1 := by
  simp only [dmodify]
  cases h : alookup m k with
  | some v =>
    simp only [dgetIns, h]
    exact sumVals_dset_succ h
  | none =>
    simp only [dgetIns, h]
    rw [sumVals_dset_succ (alookup_append_single 0 h), sumVals_append_single]



/-! ## Per-value effect of `_analyze_value` on the tracked maps -/

/-- The per-scalar update `_analyze_value` applies to a field's
unique-value set: insert the stringified value unless the cap is
reached. -/
def capStep (limit : Nat) (s : List String) (x : String) : List String :=
  if s.length < limit then sadd s x else s

theorem analyzeValue_fieldCounts (a : DataAnalyzer) (g : String) (v : Value) :
    (analyzeValue a g v).fieldCounts = dmodify a.fieldCounts g (fun n => n + 1) 0 := by
  cases v <;> simp only [analyzeValue] <;> (try split_ifs) <;> rfl

theorem analyzeValue_fieldTypes (a : DataAnalyzer) (g : String) (v : Value) :
    (analyzeValue a g v).fieldTypes =
      dmodify a.fieldTypes g (fun tc => dmodify tc (pyTypeName v) (fun n => n + 1) 0) [] := by
  cases v <;> simp only [analyzeValue] <;> (try split_ifs) <;> rfl

theorem analyzeValue_valueCountLimit (a : DataAnalyzer) (g : String) (v : Value) :
    (analyzeValue a g v).valueCountLimit = a.valueCountLimit := by
  cases v <;> simp only [analyzeValue] <;> (try split_ifs) <;> rfl

theorem analyzeValue_fieldValues_nonscalar (a : DataAnalyzer) (g : String) (v : Value)
    (h : isScalarV v = false) : (analyzeValue a g v).fieldValues = a.fieldValues := by
  cases v <;> simp_all [isScalarV, analyzeValue]

theorem analyzeValue_fieldValues_scalar (a : DataAnalyzer) (g : String) (v : Value)
    (h : isScalarV v = true) :
    (analyzeValue a g v).fieldValues =
      (if (dgetIns a.fieldValues g []).1.length < a.valueCountLimit then
        dset (dgetIns a.fieldValues g []).2 g
          (sadd (dgetIns a.fieldValues g []).1 (pyStr v))
      else (dgetIns a.fieldValues g []).2) := by
  cases v <;> simp only [analyzeValue] <;> (try split_ifs) <;> simp_all [isScalarV]

theorem dget_fieldCounts_analyzeValue (a : DataAnalyzer) (g : String) (v : Value)
    (f : String) :
    dget (analyzeValue a g v).fieldCounts f 0 =
      (if g = f then dget a.fieldCounts f 0 + 1 else dget a.fieldCounts f 0) := by
  rw [analyzeValue_fieldCounts]
  by_cases hg : g = f
  · subst hg
    rw [if_pos rfl, dget_dmodify_self]
  · rw [if_neg hg, dget_dmodify_other _ _ _ _ _ _ hg]

theorem dget_fieldTypes_analyzeValue (a : DataAnalyzer) (g : String) (v : Value)
    (f : String) :
    dget (analyzeValue a g v).fieldTypes f [] =
      (if g = f then dmodify (dget a.fieldTypes f []) (pyTypeName v) (fun n => n + 1) 0
       else dget a.fieldTypes f []) := by
  rw [analyzeValue_fieldTypes]
  by_cases hg : g = f
  · subst hg
    rw [if_pos rfl, dget_dmodify_self]
  · rw [if_neg hg, dget_dmodify_other _ _ _ _ _ _ hg]

theorem dget_fieldValues_analyzeValue (a : DataAnalyzer) (g : String) (v : Value)
    (f : String) :
    dget (analyzeValue a g v).fieldValues f [] =
      (if g = f ∧ isScalarV v = true then
        capStep a.valueCountLimit (dget a.fieldValues f []) (pyStr v)
      else dget a.fieldValues f []) := by
  by_cases hs : isScalarV v = true
  · rw [analyzeValue_fieldValues_scalar a g v hs]
    by_cases hg : g = f
    · subst hg
      have hc : g = g ∧ isScalarV v = true := ⟨rfl, hs⟩
      rw [if_pos hc]
      unfold capStep
      rw [dgetIns_fst]
      split_ifs with hlen
      · unfold dget
        rw [alookup_dset_self _ (alookup_dgetIns_self a.fieldValues g [])]
        rfl
      · unfold dget
        rw [alookup_dgetIns_self, dgetIns_fst]
        rfl
    · have hc : ¬(g = f ∧ isScalarV v = true) := fun hcc => hg hcc.1
      rw [if_neg hc]
      split_ifs with hlen
      · unfold dget
        rw [alookup_dset_other _ hg, alookup_dgetIns_other _ _ _ _ hg]
      · unfold dget
        rw [alookup_dgetIns_other _ _ _ _ hg]
  · rw [analyzeValue_fieldValues_nonscalar a g v (by simpa using hs)]
    have hc : ¬(g = f ∧ isScalarV v = true) := fun hcc => hs hcc.2
    rw [if_neg hc]


/-! ## Claim C5: the type-histogram/occurrence invariant -/

theorem foldAV_invariant (items : List (String × Value)) (a : DataAnalyzer)
    (h : ∀ g, sumVals (dget a.fieldTypes g []) = dget a.fieldCounts g 0) :
    ∀ g, sumVals
        (dget (items.foldl (fun st p => analyzeValue st p.1 p.2) a).fieldTypes g [])
      = dget (items.foldl (fun st p => analyzeValue st p.1 p.2) a).fieldCounts g 0 := by
  induction items generalizing a with
  | nil => exact h
  | cons p rest ih =>
    rw [List.foldl_cons]
    apply ih
    intro g
    rw [dget_fieldTypes_analyzeValue, dget_fieldCounts_analyzeValue]
    by_cases hg : p.1 = g
    · rw [if_pos hg, if_pos hg, sumVals_dmodify_succ, h g]
    · rw [if_neg hg, if_neg hg]
      exact h g

theorem analyzeBatch_invariant (records : List (List (String × Value)))
    (a : DataAnalyzer)
    (h : ∀ g, sumVals (dget a.fieldTypes g []) = dget a.fieldCounts g 0) :
    ∀ g, sumVals (dget (analyzeBatch a records).fieldTypes g []) =
      dget (analyzeBatch a records).fieldCounts g 0 := by
  induction records generalizing a with
  | nil => exact h
  | cons r rest ih =>
    simp only [analyzeBatch, List.foldl_cons]
    exact ih (analyzeRecord a r) (foldAV_invariant r _ h)

/-- C5: after any sequence of `analyze_record` calls on a fresh analyzer,
every field's type histogram sums to its occurrence count. -/
theorem c5_type_histogram_invariant (records : List (List (String × Value)))
    (f : String) :
    sumVals (dget (analyzeBatch freshAnalyzer records).fieldTypes f []) =
      dget (analyzeBatch freshAnalyzer records).fieldCounts f 0 :=
  analyzeBatch_invariant records freshAnalyzer (fun _ => rfl) f



/-! ## Claim C6: the unique-value cap -/

/-- The stream of stringified scalar observations a record list feeds to
field `f`, in order. -/
def scalarStrs (f : String) (records : List (List (String × Value))) : List String :=
  (records.map (fun r =>
    (r.filter (fun p => p.1 == f && isScalarV p.2)).map (fun p => pyStr p.2))).flatten

/-- Total occurrences of field `f` across a record list. -/
def countOcc (f : String) (records : List (List (String × Value))) : Nat :=
  (records.map (fun r => (r.filter (fun p => p.1 == f)).length)).sum

/-- Value equality on the scalar shapes (used to count distinct scalar
values for claim C6; composite values never reach the unique-value set). -/
def scalarEqB : Value → Value → Bool
  | .null, .null => true
  | .bool a, .bool b => a == b
  | .int a, .int b => a == b
  | .float a, .float b => decide (a = b)
  | .str a, .str b => a == b
  | _, _ => false

/-- The scalar values a record list feeds to field `f`, in order. -/
def scalarVals (f : String) (records : List (List (String × Value))) : List Value :=
  (records.map (fun r =>
    (r.filter (fun p => p.1 == f && isScalarV p.2)).map (fun p => p.2))).flatten

/-- Number of pairwise-distinct scalar values in a list. -/
def distinctScalarCount (xs : List Value) : Nat :=
  (xs.foldl (fun acc x => if acc.any (fun y => scalarEqB y x) then acc else acc ++ [x])
    []).length

theorem foldAV_valueCountLimit (items : List (String × Value)) (a : DataAnalyzer) :
    (items.foldl (fun st p => analyzeValue st p.1 p.2) a).valueCountLimit
      = a.valueCountLimit := by
  induction items generalizing a with
  | nil => rfl
  | cons p rest ih =>
    rw [List.foldl_cons, ih, analyzeValue_valueCountLimit]

theorem analyzeBatch_valueCountLimit (records : List (List (String × Value)))
    (a : DataAnalyzer) :
    (analyzeBatch a records).valueCountLimit = a.valueCountLimit := by
  induction records generalizing a with
  | nil => rfl
  | cons r rest ih =>
    simp only [analyzeBatch, List.foldl_cons]
    exact (ih (analyzeRecord a r)).trans (foldAV_valueCountLimit r _)

theorem fv_foldAV (items : List (String × Value)) (a : DataAnalyzer) (f : String) :
    dget (items.foldl (fun st p => analyzeValue st p.1 p.2) a).fieldValues f [] =
      ((items.filter (fun p => p.1 == f && isScalarV p.2)).map
        (fun p => pyStr p.2)).foldl
        (capStep a.valueCountLimit) (dget a.fieldValues f []) := by
  induction items generalizing a with
  | nil => rfl
  | cons p rest ih =>
    rw [List.foldl_cons, ih, analyzeValue_valueCountLimit,
      dget_fieldValues_analyzeValue]
    by_cases h1 : p.1 = f
    · by_cases h2 : isScalarV p.2 = true
      · rw [if_pos ⟨h1, h2⟩]
        rw [List.filter_cons, if_pos (by rw [h1, h2]; simp), List.map_cons,
          List.foldl_cons]
      · rw [if_neg (fun hc => h2 hc.2)]
        rw [List.filter_cons, if_neg (by simp [h2])]
    · rw [if_neg (fun hc => h1 hc.1)]
      rw [List.filter_cons, if_neg (by simp [h1])]

theorem fv_analyzeBatch (records : List (List (String × Value))) (a : DataAnalyzer)
    (f : String) :
    dget (analyzeBatch a records).fieldValues f [] =
      (scalarStrs f records).foldl (capStep a.valueCountLimit)
        (dget a.fieldValues f []) := by
  induction records generalizing a with
  | nil => rfl
  | cons r rest ih =>
    simp only [analyzeBatch, List.foldl_cons]
    rw [show rest.foldl analyzeRecord (analyzeRecord a r)
        = analyzeBatch (analyzeRecord a r) rest from rfl]
    rw [ih (analyzeRecord a r)]
    rw [show (analyzeRecord a r).valueCountLimit = a.valueCountLimit from
      foldAV_valueCountLimit r _]
    rw [show dget (analyzeRecord a r).fieldValues f [] =
        ((r.filter (fun p => p.1 == f && isScalarV p.2)).map (fun p => pyStr p.2)).foldl
          (capStep a.valueCountLimit) (dget a.fieldValues f []) from fv_foldAV r _ f]
    rw [show scalarStrs f (r :: rest) =
        ((r.filter (fun p => p.1 == f && isScalarV p.2)).map (fun p => pyStr p.2))
          ++ scalarStrs f rest from rfl]
    rw [List.foldl_append]

theorem fc_foldAV (items : List (String × Value)) (a : DataAnalyzer) (f : String) :
    dget (items.foldl (fun st p => analyzeValue st p.1 p.2) a).fieldCounts f 0 =
      dget a.fieldCounts f 0 + (items.filter (fun p => p.1 == f)).length := by
  induction items generalizing a with
  | nil => simp
  | cons p rest ih =>
    rw [List.foldl_cons, ih, dget_fieldCounts_analyzeValue]
    by_cases h1 : p.1 = f
    · rw [if_pos h1, List.filter_cons, if_pos (by simp [h1])]
      simp only [List.length_cons]
      omega
    · rw [if_neg h1, List.filter_cons, if_neg (by simp [h1])]

theorem fc_analyzeBatch (records : List (List (String × Value))) (a : DataAnalyzer)
    (f : String) :
    dget (analyzeBatch a records).fieldCounts f 0 =
      dget a.fieldCounts f 0 + countOcc f records := by
  induction records generalizing a with
  | nil => simp [analyzeBatch, countOcc]
  | cons r rest ih =>
    simp only [analyzeBatch, List.foldl_cons]
    rw [show rest.foldl analyzeRecord (analyzeRecord a r)
        = analyzeBatch (analyzeRecord a r) rest from rfl]
    rw [ih (analyzeRecord a r)]
    rw [show dget (analyzeRecord a r).fieldCounts f 0 =
        dget a.fieldCounts f 0 + (r.filter (fun p => p.1 == f)).length from
      fc_foldAV r _ f]
    have hco : countOcc f (r :: rest) =
        (r.filter (fun p => p.1 == f)).length + countOcc f rest := by
      simp [countOcc]
    rw [hco]
    omega

theorem length_filter_and_le {α : Type} (p q : α → Bool) (l : List α) :
    (l.filter (fun x => p x && q x)).length ≤ (l.filter p).length := by
  induction l with
  | nil => simp
  | cons x xs ih =>
    have hih := ih
    cases hp : p x
    · simp only [List.filter_cons, hp, Bool.false_and]
      simpa using hih
    · cases hq : q x
      · simp [List.filter_cons, hp, hq]
        omega
      · simp [List.filter_cons, hp, hq]
        omega

theorem scalarStrs_length_le (f : String) (records : List (List (String × Value))) :
    (scalarStrs f records).length ≤ countOcc f records := by
  induction records with
  | nil => simp [scalarStrs, countOcc]
  | cons r rest ih =>
    have h1 : scalarStrs f (r :: rest) =
        ((r.filter (fun p => p.1 == f && isScalarV p.2)).map (fun p => pyStr p.2))
          ++ scalarStrs f rest := rfl
    have h2 : countOcc f (r :: rest) =
        (r.filter (fun p => p.1 == f)).length + countOcc f rest := by
      simp [countOcc]
    rw [h1, h2, List.length_append, List.length_map]
    have h3 := length_filter_and_le (fun p => p.1 == f)
      (fun p => isScalarV p.2) r
    omega

theorem seenFold_length_le (xs : List String) :
    ∀ acc : List String, (xs.foldl seenStep acc).length ≤ acc.length + xs.length := by
  induction xs with
  | nil => intro acc; simp
  | cons x rest ih =>
    intro acc
    rw [List.foldl_cons]
    have h1 := ih (seenStep acc x)
    have h2 : (seenStep acc x).length ≤ acc.length + 1 := by
      unfold seenStep
      split_ifs <;> simp
    simp only [List.length_cons]
    omega

theorem distinctCount_le_length (xs : List String) : distinctCount xs ≤ xs.length := by
  have := seenFold_length_le xs []
  simpa [distinctCount] using this



/-- One step of the cap/seen simulation: the stored set tracks the set of
distinct strings seen so far until it reaches the cap, and its size is
always the minimum of the cap and the number of distinct strings seen. -/
theorem capStep_inv (L : Nat) (fs seen : List String) (x : String)
    (h1 : ∀ y, y ∈ fs → y ∈ seen)
    (h2 : fs.length < L → ∀ y, y ∈ seen → y ∈ fs)
    (h3 : fs.length = min L seen.length) :
    (∀ y, y ∈ capStep L fs x → y ∈ seenStep seen x) ∧
      ((capStep L fs x).length < L → ∀ y, y ∈ seenStep seen x → y ∈ capStep L fs x) ∧
      (capStep L fs x).length = min L (seenStep seen x).length := by
  unfold capStep seenStep sadd
  by_cases hlt : fs.length < L
  · rw [if_pos hlt]
    by_cases hx : x ∈ fs
    · have hxs : x ∈ seen := h1 x hx
      rw [if_pos hx, if_pos hxs]
      exact ⟨h1, h2, h3⟩
    · have hxs : x ∉ seen := fun hmem => hx (h2 hlt x hmem)
      rw [if_neg hx, if_neg hxs]
      have hfs_eq : fs.length = seen.length := by omega
      refine ⟨?_, ?_, ?_⟩
      · intro y hy
        rcases List.mem_append.mp hy with h | h
        · exact List.mem_append.mpr (Or.inl (h1 y h))
        · exact List.mem_append.mpr (Or.inr h)
      · intro _ y hy
        rcases List.mem_append.mp hy with h | h
        · exact List.mem_append.mpr (Or.inl (h2 hlt y h))
        · exact List.mem_append.mpr (Or.inr h)
      · simp only [List.length_append, List.length_singleton]
        omega
  · rw [if_neg hlt]
    have hfsL : fs.length = L := by omega
    refine ⟨?_, ?_, ?_⟩
    · intro y hy
      by_cases hxs : x ∈ seen
      · rw [if_pos hxs]
        exact h1 y hy
      · rw [if_neg hxs]
        exact List.mem_append.mpr (Or.inl (h1 y hy))
    · intro hcon
      exact absurd hcon hlt
    · by_cases hxs : x ∈ seen
      · rw [if_pos hxs]
        exact h3
      · rw [if_neg hxs]
        simp only [List.length_append, List.length_singleton]
        omega

theorem capFold_inv (L : Nat) (strs : List String) :
    ∀ fs seen : List String,
      (∀ y, y ∈ fs → y ∈ seen) →
      (fs.length < L → ∀ y, y ∈ seen → y ∈ fs) →
      fs.length = min L seen.length →
      ((∀ y, y ∈ strs.foldl (capStep L) fs → y ∈ strs.foldl seenStep seen) ∧
        ((strs.foldl (capStep L) fs).length < L →
          ∀ y, y ∈ strs.foldl seenStep seen → y ∈ strs.foldl (capStep L) fs) ∧
        (strs.foldl (capStep L) fs).length
          = min L (strs.foldl seenStep seen).length) := by
  induction strs with
  | nil =>
    intro fs seen h1 h2 h3
    exact ⟨h1, h2, h3⟩
  | cons x rest ih =>
    intro fs seen h1 h2 h3
    obtain ⟨g1, g2, g3⟩ := capStep_inv L fs seen x h1 h2 h3
    simpa only [List.foldl_cons] using ih (capStep L fs x) (seenStep seen x) g1 g2 g3

/-- The stored unique-value set built by folding the capped insert from an
empty set has size min(cap, number of distinct strings in the stream). -/
theorem capFold_length (L : Nat) (strs : List String) :
    (strs.foldl (capStep L) []).length = min L (distinctCount strs) := by
  have h := capFold_inv L strs [] []
    (fun y hy => absurd hy (List.not_mem_nil y))
    (fun _ y hy => absurd hy (List.not_mem_nil y))
    (by simp)
  simpa [distinctCount] using h.2.2

/-- `get_cardinality` as a function of the tracked maps. -/
theorem getCardinality_val (a : DataAnalyzer) (f : String) :
    (getCardinality a f).1 =
      (if dget a.fieldCounts f 0 = 0 then 0
       else if (dget a.fieldValues f []).length ≥ a.valueCountLimit then (1 : Rat)
       else ((dget a.fieldValues f []).length : Rat)
         / ((dget a.fieldCounts f 0 : Nat) : Rat)) := by
  by_cases h1 : dget a.fieldCounts f 0 = 0
  · simp [getCardinality, dgetIns_fst, h1]
  · by_cases h2 : (dget a.fieldValues f []).length ≥ a.valueCountLimit
    · simp [getCardinality, dgetIns_fst, h1, h2]
    · simp [getCardinality, dgetIns_fst, h1, h2]

/-- C6 counterexample: with the cap configured to 3 the stream int 1,
str 1, int 2, str 2 for one field carries 4 pairwise-distinct scalar
values (more than the cap), yet the stored unique-value set has size 2 —
distinct scalars with equal stringifications collide — and the reported
cardinality is 2/4, not 1. -/
theorem c6_counterexample :
    3 < distinctScalarCount (scalarVals "f"
        [[("f", Value.int 1)], [("f", Value.str "1")],
         [("f", Value.int 2)], [("f", Value.str "2")]]) ∧
      (dget (analyzeBatch (mkDataAnalyzer 3)
          [[("f", Value.int 1)], [("f", Value.str "1")],
           [("f", Value.int 2)], [("f", Value.str "2")]]).fieldValues "f" []).length
        = 2 ∧
      (getCardinality (analyzeBatch (mkDataAnalyzer 3)
          [[("f", Value.int 1)], [("f", Value.str "1")],
           [("f", Value.int 2)], [("f", Value.str "2")]]) "f").1 ≠ 1 := by
  refine ⟨by decide, by decide, ?_⟩
  rw [getCardinality_val]
  rw [show dget (analyzeBatch (mkDataAnalyzer 3)
      [[("f", Value.int 1)], [("f", Value.str "1")],
       [("f", Value.int 2)], [("f", Value.str "2")]]).fieldCounts "f" 0 = 4 from by decide]
  rw [show (dget (analyzeBatch (mkDataAnalyzer 3)
      [[("f", Value.int 1)], [("f", Value.str "1")],
       [("f", Value.int 2)], [("f", Value.str "2")]]).fieldValues "f" []).length = 2 from
    by decide]
  rw [show (analyzeBatch (mkDataAnalyzer 3)
      [[("f", Value.int 1)], [("f", Value.str "1")],
       [("f", Value.int 2)], [("f", Value.str "2")]]).valueCountLimit = 3 from by decide]
  norm_num

/-- C6 amended: over any configured cap, once strictly more than the cap
many distinct stringified scalar values have been observed for a field,
the stored unique-value set has size exactly the cap and the reported
cardinality is exactly 1, regardless of the occurrence count. -/
theorem c6_amended_cardinality_cap (L : Nat) (records : List (List (String × Value)))
    (f : String) (h : L < distinctCount (scalarStrs f records)) :
    (dget (analyzeBatch (mkDataAnalyzer L) records).fieldValues f []).length = L ∧
      (getCardinality (analyzeBatch (mkDataAnalyzer L) records) f).1 = 1 := by
  have hfv : dget (analyzeBatch (mkDataAnalyzer L) records).fieldValues f [] =
      (scalarStrs f records).foldl (capStep L) [] := fv_analyzeBatch records _ f
  have hlen : (dget (analyzeBatch (mkDataAnalyzer L) records).fieldValues f []).length
      = L := by
    rw [hfv, capFold_length]
    omega
  refine ⟨hlen, ?_⟩
  have hcnt : dget (analyzeBatch (mkDataAnalyzer L) records).fieldCounts f 0 =
      countOcc f records := by
    simpa [mkDataAnalyzer, dget, alookup] using
      fc_analyzeBatch records (mkDataAnalyzer L) f
  have hpos : dget (analyzeBatch (mkDataAnalyzer L) records).fieldCounts f 0 ≠ 0 := by
    rw [hcnt]
    have l1 := distinctCount_le_length (scalarStrs f records)
    have l2 := scalarStrs_length_le f records
    omega
  have hlim : (analyzeBatch (mkDataAnalyzer L) records).valueCountLimit = L :=
    analyzeBatch_valueCountLimit records _
  rw [getCardinality_val, if_neg hpos, if_pos (by simp [hlen, hlim])]

/-- Witness for the amended C6 at cap 2 with 3 distinct strings. -/
theorem c6_amended_cardinality_cap_witness :
    (dget (analyzeBatch (mkDataAnalyzer 2)
        [[("f", Value.str "a")], [("f", Value.str "b")],
         [("f", Value.str "c")]]).fieldValues "f" []).length = 2 ∧
      (getCardinality (analyzeBatch (mkDataAnalyzer 2)
          [[("f", Value.str "a")], [("f", Value.str "b")],
           [("f", Value.str "c")]]) "f").1 = 1 :=
  c6_amended_cardinality_cap 2 _ "f" (by decide)


end Acid
